import Mathlib

/-!
Verification development for the seat-watch repository.

The extraction pipeline (`src/scrapingScanner.ts`) and the aggregation
dashboard (`src/Dashboard.tsx`) are shallowly embedded below.  JavaScript
`Date` values are modelled as milliseconds since the Unix epoch (`Int`),
wrapped in `Option` where `none` stands for a JS Invalid Date (a `NaN`
time value).  JS numbers read from the page are modelled as `Option`
values (`none` = `NaN`) over `Int` for times and `ℚ` for prices; IEEE
rounding is immaterial to the properties proved here, which only concern
signs, presence and structural alignment.  DOM reads (locator counts and
`innerText` results) are passed in as explicit data.
-/

namespace SeatWatch

/-- Milliseconds per minute, hour and day, as used by the JS `Date` model. -/
def msPerMinute : Int := 60000

def msPerHour : Int := 3600000

def msPerDay : Int := 86400000

/-- Numeric value of a decimal-digit list, most significant first. -/
def digitsVal (l : List Char) : Nat :=
  l.foldl (fun a c => a * 10 + (c.toNat - 48)) 0

/-- JS `s.split(c)` for a single-character separator: the (non-empty)
list of chunks between occurrences of `c`; the empty string splits to
`[""]`. -/
def splitOnChar (c : Char) : List Char → List (List Char)
  | [] => [[]]
  | x :: xs =>
    match splitOnChar c xs with
    | [] => [[x]]
    | y :: ys => if x = c then [] :: y :: ys else (x :: y) :: ys

/-- JS `s.toLowerCase()` on the ASCII texts this pipeline reads. -/
def jsToLower (s : String) : String :=
  String.mk (s.data.map Char.toLower)

/-- JS `s.trim()`: strip leading and trailing whitespace. -/
def jsTrim (s : String) : String :=
  String.mk (((s.data.dropWhile Char.isWhitespace).reverse.dropWhile Char.isWhitespace).reverse)

/-- JS `Number(s)` restricted to the unsigned decimal strings this pipeline
feeds it (pieces of a clock string split on `:`): the empty string converts
to `0`, a digit string to its value, anything else to `NaN` (`none`).
Signed, fractional, hexadecimal or padded forms never reach this call. -/
def jsNumber (s : String) : Option Int :=
  if s.data.all Char.isDigit then some (Int.ofNat (digitsVal s.data)) else none

/-- JS `d.setUTCHours(h, m, 0, 0)` on a valid date with time value `t`:
the hour and minute are NOT clamped, out-of-range values roll over by
plain calendar arithmetic. -/
def setUTCHoursMs (t h m : Int) : Int :=
  t - t % msPerDay + h * msPerHour + m * msPerMinute

/-- Scan for the first match of the regex `\+(\d+)\s+day` and return the
captured digit group, as `dayChangeText.match(/\+(\d+)\s+day/)` does. -/
def dayMatchGo : List Char → Option Nat
  | [] => none
  | '+' :: rest =>
    let digits := rest.takeWhile Char.isDigit
    let afterDigits := rest.dropWhile Char.isDigit
    let spaces := afterDigits.takeWhile Char.isWhitespace
    let afterSpaces := afterDigits.dropWhile Char.isWhitespace
    if digits ≠ [] ∧ spaces ≠ [] ∧ List.isPrefixOf ['d', 'a', 'y'] afterSpaces then
      some (digitsVal digits)
    else dayMatchGo rest
  | _ :: rest => dayMatchGo rest

def dayMatch (s : String) : Option Nat :=
  dayMatchGo s.data

/-- Model of `getSegmentTime(segment, flightTime, initialDate)`
(`scrapingScanner.ts:223-238`).  The two DOM reads on `segment` are passed
in as `dayChangeCount` (count of `.day-change`) and `dayChangeText` (its
inner text).  The function copies `initialDate` into a fresh `Date`,
applies `setUTCHours` with the two `Number`-converted pieces of
`flightTime.split(':')` (a missing or non-numeric piece poisons the copy
into an Invalid Date, `none`), then adds the matched day offset. -/
def getSegmentTime (dayChangeCount : Nat) (dayChangeText : String)
    (flightTime : String) (initialDate : Option Int) : Option Int :=
  let parts := ((splitOnChar ':' flightTime.data).map String.mk).map jsNumber
  let hours : Option Int := (parts.get? 0).getD none
  let minutes : Option Int := (parts.get? 1).getD none
  let outputDate : Option Int :=
    match initialDate, hours, minutes with
    | some t, some h, some m => some (setUTCHoursMs t h m)
    | _, _, _ => none
  if dayChangeCount > 0 then
    match dayMatch dayChangeText with
    | some n => outputDate.map (fun t => t + Int.ofNat n * msPerDay)
    | none => outputDate
  else outputDate

/-- JS `s.includes(pat)`: `pat` occurs as a contiguous substring of `s`. -/
def strContains (s pat : String) : Bool :=
  (List.range (s.length + 1)).any (fun i => List.isPrefixOf pat.data (s.data.drop i))

/-- Model of `getDurationString(start, end)` (`scrapingScanner.ts:190-195`):
whole hours and leftover minutes of the (possibly negative) difference,
truncated exactly as JS `Math.floor` and `%` truncate. -/
def getDurationString (startMs endMs : Int) : String :=
  let diffMs := endMs - startMs
  let diffHours := diffMs.fdiv msPerHour
  let diffMinutes := (diffMs.tmod msPerHour).fdiv msPerMinute
  toString diffHours ++ "h " ++ toString diffMinutes ++ "m"

/-- Tagged union of the two segment record shapes pushed by
`extractSegments` (`OriginSegment` / `ArrivalSegment`).  The instants are
`Option Int` because `getSegmentTime` can return an Invalid Date. -/
inductive Segment where
  | origin (startTime : Option Int) (airportCode : String) (flightNumber : String)
  | arrival (endTime : Option Int) (airportCode : String)
  deriving DecidableEq, Repr

structure SeatDetails where
  standardSeatsAvailable : Nat
  standardSeatsOccupied : Nat
  preferedSeatsAvailable : Nat
  preferedSeatsOccupied : Nat
  deriving DecidableEq, Repr

/-- Fare map `Record<string, number>`: insertion-ordered keys, `none`
values model `NaN` prices. -/
abbrev FareMap := List (String × Option ℚ)

/-- One `Flight` record as built by `buildFlightDetails`.  The source
stores `departureTime`/`arrivalTime` as `toISOString()` strings; since
`toISOString` is injective on valid instants (and throws on invalid ones,
which the embedding maps to `none` overall), the instants themselves are
kept.  `seatDetails` is `none` when `seatDetailsArray[seatIndex]` is
`undefined` (empty seat array). -/
structure Flight where
  flightNumber : String
  departureTime : Int
  arrivalTime : Int
  departureAirport : String
  arrivalAirport : String
  duration : String
  seatDetails : Option SeatDetails
  deriving DecidableEq, Repr

structure FlightDetails where
  flights : List Flight
  fares : FareMap
  deriving DecidableEq, Repr

/-- Pairing loop of `buildFlightDetails` (`scrapingScanner.ts:350-364`),
`pi` being the pair index `i / 2` of the source's `i`-stepping-by-2 loop.
`none` models the JS crash (`TypeError`/`RangeError`) that the unchecked
casts produce when `segments[i]` is not an origin entry with a valid
start instant, or `segments[i+1]` is not an arrival entry with a valid
end instant (including the odd-length case, where `segments[i+1]` is
`undefined`). -/
def buildFlightsAux (seats : List SeatDetails) : Nat → List Segment → Option (List Flight)
  | _, [] => some []
  | pi, Segment.origin (some st) ap fn :: Segment.arrival (some et) ap2 :: rest =>
    (buildFlightsAux seats (pi + 1) rest).map
      (fun fl =>
        { flightNumber := fn
          departureTime := st
          arrivalTime := et
          departureAirport := ap
          arrivalAirport := ap2
          duration := getDurationString st et
          seatDetails := seats.get? (min pi (seats.length - 1)) } :: fl)
  | _, _ => none

/-- Model of `buildFlightDetails(segments, seatDetailsArray, fareDetails)`
(`scrapingScanner.ts:344-366`).  The seat index for pair `i` is
`Math.min(i/2, Math.max(0, seats.length - 1))`; with `Nat` subtraction
`seats.length - 1` already equals `Math.max(0, seats.length - 1)`. -/
def buildFlightDetails (segments : List Segment) (seatDetailsArray : List SeatDetails)
    (fareDetails : FareMap) : Option FlightDetails :=
  (buildFlightsAux seatDetailsArray 0 segments).map
    (fun fl => { flights := fl, fares := fareDetails })

/-- Sequence shape guaranteed by a valid extraction: strict alternation
origin, arrival, origin, arrival, … with valid instants (spec §3's
invariant on validly-extracted, layover-filtered sequences). -/
def alternatingOK : List Segment → Bool
  | [] => true
  | Segment.origin (some _) _ _ :: Segment.arrival (some _) _ :: rest => alternatingOK rest
  | _ => false

/-- Data-level model of `processSingleFlight` (`scrapingScanner.ts:145-188`)
after the row has been matched: `segments`, `seatDetailsArray` and
`fareDetails` are the three extraction results, and
`fareOptionsMatching` the number of fare-tray options whose text contains
`searchParams.fareChoice`.  An odd segment count returns `null` before
any pairing; otherwise the paired details are returned unless no fare
option matches the fare choice. -/
def processSingleFlight (segments : List Segment) (seatDetailsArray : List SeatDetails)
    (fareDetails : FareMap) (fareOptionsMatching : Nat) : Option FlightDetails :=
  if segments.length % 2 ≠ 0 then none
  else
    match buildFlightDetails segments seatDetailsArray fareDetails with
    | none => none
    | some fd => if fareOptionsMatching = 0 then none else some fd

/-- The four optional time hints of `FilterDetails`
(`scrapingScanner.ts:16-21`). -/
structure FilterDetails where
  depOriTime : Option String
  depArrTime : Option String
  retOriTime : Option String
  retArrTime : Option String
  deriving DecidableEq, Repr

/-- JS `s.toLowerCase().trim()` applied to each provided hint before
the row loop of `findRowByFilter`. -/
def lcTrim (s : String) : String :=
  jsTrim (jsToLower s)

/-- One disjunct of the loop's `continue` condition:
`hint && !timeline.includes(hint)` — a hint blocks a row iff it is
provided, truthy (non-empty after lower-casing and trimming) and not a
substring of the row's lower-cased timeline text. -/
def hintBlocks (hint : Option String) (timeline : String) : Bool :=
  match hint with
  | none => false
  | some s => decide (s ≠ "") && ! strContains timeline s

/-- Row loop of `findRowByFilter` (`scrapingScanner.ts:263-279`): `i` is
the running index, each row is represented by its `.flight-timeline`
inner text (the only thing the loop reads from it). -/
def findRowGo (dOri dArr rOri rArr : Option String) (departing : Bool) :
    Nat → List String → Option (Nat × String)
  | _, [] => none
  | i, row :: rest =>
    let timeline := jsToLower row
    if departing then
      if hintBlocks dOri timeline || hintBlocks dArr timeline then
        findRowGo dOri dArr rOri rArr departing (i + 1) rest
      else some (i, row)
    else
      if hintBlocks rOri timeline || hintBlocks rArr timeline then
        findRowGo dOri dArr rOri rArr departing (i + 1) rest
      else some (i, row)

/-- Model of `findRowByFilter(page, flightRows, filter, flightType)`
(`scrapingScanner.ts:256-280`).  Returns the matched row's index and
timeline text, or `none` (the source's `null`). -/
def findRowByFilter (flightRows : List String) (filter : FilterDetails)
    (flightType : String) : Option (Nat × String) :=
  findRowGo (filter.depOriTime.map lcTrim) (filter.depArrTime.map lcTrim)
    (filter.retOriTime.map lcTrim) (filter.retArrTime.map lcTrim)
    (strContains flightType "Departing") 0 flightRows

/-- Modelled from the spec (§4.2), for comparison with `findRowByFilter`:
a row matches iff every provided hint of the current direction is,
case-insensitively (and ignoring surrounding whitespace of the hint), a
substring of the row's lower-cased itinerary text; absent hints impose no
constraint and the other direction's hints are not consulted. -/
def hintOkSpec (hint : Option String) (timeline : String) : Bool :=
  match hint with
  | none => true
  | some s => strContains timeline (lcTrim s)

def rowMatchesSpec (filter : FilterDetails) (departing : Bool) (row : String) : Bool :=
  if departing then
    hintOkSpec filter.depOriTime (jsToLower row) && hintOkSpec filter.depArrTime (jsToLower row)
  else
    hintOkSpec filter.retOriTime (jsToLower row) && hintOkSpec filter.retArrTime (jsToLower row)

/-- One fare-tray option as read by `getFareDetails`: the element count of
`p.fare-family-title` and the three inner texts the loop reads. -/
structure FareOption where
  titleCount : Nat
  fareFamily : String
  fareFamilyCabin : String
  priceText : String
  deriving DecidableEq, Repr

/-- JS `priceText.replace(/[^\d.]/g, '')`: keep only decimal digits
and `.`. -/
def stripNonPrice (s : String) : String :=
  String.mk (s.data.filter (fun c => c.isDigit || c == '.'))

/-- JS `parseFloat` on the stripped price text (a string of digits and
dots): the longest numeric prefix `digits [. digits]` with at least one
digit, as an exact rational; `none` models `NaN`. -/
def jsParseFloat (s : String) : Option ℚ :=
  match s.data.dropWhile Char.isDigit with
  | '.' :: rest2 =>
    if s.data.takeWhile Char.isDigit = [] ∧ rest2.takeWhile Char.isDigit = [] then none
    else
      some ((digitsVal (s.data.takeWhile Char.isDigit) : ℚ)
        + (digitsVal (rest2.takeWhile Char.isDigit) : ℚ)
          / (10 : ℚ) ^ (rest2.takeWhile Char.isDigit).length)
  | _ =>
    if s.data.takeWhile Char.isDigit = [] then none
    else some ((digitsVal (s.data.takeWhile Char.isDigit) : ℚ))

/-- JS `record[key] = value` on a string-keyed object: overwrite in place
if the key exists, otherwise append (insertion order preserved). -/
def recordSet (m : FareMap) (k : String) (v : Option ℚ) : FareMap :=
  if m.any (fun p => p.1 == k) then
    m.map (fun p => if p.1 == k then (k, v) else p)
  else m ++ [(k, v)]

/-- The composite key `` `${fareFamily} (${fareFamilyCabin})` ``. -/
def fareKey (option : FareOption) : String :=
  option.fareFamily ++ " (" ++ option.fareFamilyCabin ++ ")"

/-- Model of `getFareDetails(row)` (`scrapingScanner.ts:368-389`): skip
options without a `fare-family-title`; otherwise store, under the key
`"<family> (<cabin>)"`, the `parseFloat` of the stripped price text —
whether or not that parse succeeded (`none` = `NaN` is stored too). -/
def getFareDetails (options : List FareOption) : FareMap :=
  options.foldl
    (fun fareDetails option =>
      if option.titleCount = 0 then fareDetails
      else
        recordSet fareDetails (fareKey option)
          (jsParseFloat (stripNonPrice option.priceText)))
    []

/-! ### Dashboard aggregation (`src/Dashboard.tsx`) -/

/-- `FlightDataPoint` (`Dashboard.tsx:29-34`). -/
structure FlightDataPoint where
  flightNumber : String
  standardSeatsAvailable : Nat
  preferedSeatsAvailable : Nat
  route : String
  deriving DecidableEq, Repr

/-- `AggregatedDataPoint` (`Dashboard.tsx:36-45`). -/
structure AggregatedDataPoint where
  timestamp : String
  date : String
  lowestDepartureFare : Option ℚ
  lowestReturnFare : Option ℚ
  departureFares : FareMap
  returnFares : FareMap
  departureFlights : List FlightDataPoint
  returnFlights : List FlightDataPoint
  deriving DecidableEq, Repr

/-- JS `Math.min(...values)` over the listed fare values: `NaN`
absorbing.  The zero-argument case (JS `Infinity`) has no rational
counterpart and is excluded by a non-emptiness hypothesis wherever this
model is relied upon. -/
def jsMinStep (a b : Option ℚ) : Option ℚ :=
  match a, b with
  | some a', some b' => some (min a' b')
  | _, _ => none

def jsMathMin : List (Option ℚ) → Option ℚ
  | [] => none
  | x :: xs => xs.foldl jsMinStep x

/-- Per-file record construction of `loadData` (`Dashboard.tsx:88-115`):
the `lowest*Fare` fields are `Math.min` over the corresponding fare map's
values, and `date` is the part of the timestamp before `T`. -/
def loadDataPoint (timestamp : String) (departureFaresMap returnFaresMap : FareMap)
    (departureFlights returnFlights : List FlightDataPoint) : AggregatedDataPoint :=
  { timestamp := timestamp
    date := String.mk ((splitOnChar 'T' timestamp.data).headD timestamp.data)
    lowestDepartureFare := jsMathMin (departureFaresMap.map (fun p => p.2))
    lowestReturnFare := jsMathMin (returnFaresMap.map (fun p => p.2))
    departureFares := departureFaresMap
    returnFares := returnFaresMap
    departureFlights := departureFlights
    returnFlights := returnFlights }

/-- JS `m[k]` on a string-keyed record: the stored value when the key is
present, `undefined` otherwise.  A present `NaN` value and an absent key
are both `none`; the two are indistinguishable to the `||` fallback that
consumes this read. -/
def recordGet (m : FareMap) (k : String) : Option ℚ :=
  match m.find? (fun p => p.1 == k) with
  | some p => p.2
  | none => none

/-- JS truthiness of a number-or-undefined: `0`, `NaN` and `undefined`
are falsy. -/
def jsTruthy (v : Option ℚ) : Bool :=
  match v with
  | some q => decide (q ≠ 0)
  | none => false

/-- JS `a || b` on numbers. -/
def jsOrNum (a b : Option ℚ) : Option ℚ :=
  if jsTruthy a then a else b

/-- The fare lookup `d.departureFares[k] || d.lowestDepartureFare`
(`Dashboard.tsx:164` and `Dashboard.tsx:288`). -/
def fareOrLowestDeparture (d : AggregatedDataPoint) (k : String) : Option ℚ :=
  jsOrNum (recordGet d.departureFares k) d.lowestDepartureFare

/-- The fare lookup `d.returnFares[k] || d.lowestReturnFare`
(`Dashboard.tsx:174` and `Dashboard.tsx:290`). -/
def fareOrLowestReturn (d : AggregatedDataPoint) (k : String) : Option ℚ :=
  jsOrNum (recordGet d.returnFares k) d.lowestReturnFare

/-- Departure dataset of `faresData` (`Dashboard.tsx:160-171`): one
`(x, y)` chart point per aggregated point. -/
def faresDataDeparture (data : List AggregatedDataPoint) (k : String) :
    List (String × Option ℚ) :=
  data.map (fun d => (d.timestamp, fareOrLowestDeparture d k))

/-- Return dataset of `faresData` (`Dashboard.tsx:172-182`). -/
def faresDataReturn (data : List AggregatedDataPoint) (k : String) :
    List (String × Option ℚ) :=
  data.map (fun d => (d.timestamp, fareOrLowestReturn d k))

/-- `currentDepartureFare` (`Dashboard.tsx:288`), reading
`latest = data[data.length - 1]`; `none` models the crash on an empty
list (the component never renders one). -/
def currentDepartureFare (data : List AggregatedDataPoint) (k : String) : Option ℚ :=
  match data.get? (data.length - 1) with
  | some d => fareOrLowestDeparture d k
  | none => none

/-- `currentReturnFare` (`Dashboard.tsx:290`). -/
def currentReturnFare (data : List AggregatedDataPoint) (k : String) : Option ℚ :=
  match data.get? (data.length - 1) with
  | some d => fareOrLowestReturn d k
  | none => none

/-- Seat-count sequence accumulated for one flight identifier by the
second `data.forEach` pass over `flightMap` (`Dashboard.tsx:264-280`):
for each aggregated point, in order, each departure-flight entry and then
each return-flight entry carrying that identifier pushes its standard
seat count. -/
def flightStandardSeats (data : List AggregatedDataPoint) (fn : String) : List Nat :=
  data.foldl
    (fun acc d =>
      acc ++
        ((d.departureFlights ++ d.returnFlights).filter
            (fun f => f.flightNumber == fn)).map
          (fun f => f.standardSeatsAvailable))
    []

/-- Preferred-seat analogue of `flightStandardSeats`. -/
def flightPreferredSeats (data : List AggregatedDataPoint) (fn : String) : List Nat :=
  data.foldl
    (fun acc d =>
      acc ++
        ((d.departureFlights ++ d.returnFlights).filter
            (fun f => f.flightNumber == fn)).map
          (fun f => f.preferedSeatsAvailable))
    []

/-- Standard-seats dataset of `flightData` (`Dashboard.tsx:344-356`):
`data.map((d, idx) => ({ x: d.timestamp, y: flight.standardSeats[idx] }))`,
where `y` is `undefined` (`none`) past the end of the accumulated list. -/
def flightDataStandard (data : List AggregatedDataPoint) (fn : String) :
    List (String × Option Nat) :=
  data.enum.map (fun p => (p.2.timestamp, (flightStandardSeats data fn).get? p.1))

/-- Preferred-seats dataset of `flightData` (`Dashboard.tsx:357-366`). -/
def flightDataPreferred (data : List AggregatedDataPoint) (fn : String) :
    List (String × Option Nat) :=
  data.enum.map (fun p => (p.2.timestamp, (flightPreferredSeats data fn).get? p.1))

/-! ### Object-level model of `Date` mutation

`getSegmentTime` receives a reference to the caller's `Date` object
(`searchParams.departureDate`) and mutates only a fresh copy.  To state
that as a frame property, `Date` objects live in an explicit store of
`Option Int` time values (`none` = Invalid Date), and references are
store indices. -/

abbrev DateStore := List (Option Int)

/-- `new Date(v)`: allocate a fresh cell, returning the new store and the
fresh reference. -/
def allocDate (st : DateStore) (v : Option Int) : DateStore × Nat :=
  (st ++ [v], st.length)

/-- Store-level model of `getSegmentTime` (`scrapingScanner.ts:223-238`):
copy the referenced initial date into a fresh cell, mutate the copy with
`setUTCHours`, then (for an observed day-change annotation) with
`setUTCDate(getUTCDate() + n)`, whose net effect on the time value is
`+ n` days. -/
def getSegmentTimeS (st : DateStore) (dayChangeCount : Nat) (dayChangeText : String)
    (flightTime : String) (initialDateRef : Nat) : DateStore × Nat :=
  let (st1, outRef) := allocDate st (st.getD initialDateRef none)
  let parts := ((splitOnChar ':' flightTime.data).map String.mk).map jsNumber
  let hours : Option Int := (parts.get? 0).getD none
  let minutes : Option Int := (parts.get? 1).getD none
  let afterHours : Option Int :=
    match st1.getD outRef none, hours, minutes with
    | some t, some h, some m => some (setUTCHoursMs t h m)
    | _, _, _ => none
  let st2 := st1.set outRef afterHours
  let st3 :=
    if dayChangeCount > 0 then
      match dayMatch dayChangeText with
      | some n =>
        st2.set outRef ((st2.getD outRef none).map (fun t => t + Int.ofNat n * msPerDay))
      | none => st2
    else st2
  (st3, outRef)

/-- One raw `ol.segments-info > li` entry as read by `extractSegments`:
the element counts and inner texts the loop consumes. -/
structure RawSegment where
  layoverCount : Nat
  originCount : Nat
  startTimeText : String
  endTimeText : String
  airportCode : String
  flightNumber : String
  dayChangeCount : Nat
  dayChangeText : String
  deriving DecidableEq, Repr

/-- Store-level model of the loop of `extractSegments`
(`scrapingScanner.ts:289-307`): layover entries are skipped, origin
entries produce `OriginSegment`s and all others `ArrivalSegment`s, each
calling `getSegmentTimeS` against the same `departureDateRef`
(`searchParams.departureDate`). -/
def extractSegmentsS : DateStore → Nat → List RawSegment → DateStore × List Segment
  | st, _, [] => (st, [])
  | st, departureDateRef, raw :: rest =>
    if raw.layoverCount > 0 then extractSegmentsS st departureDateRef rest
    else if raw.originCount > 0 then
      let res :=
        getSegmentTimeS st raw.dayChangeCount raw.dayChangeText raw.startTimeText
          departureDateRef
      let res2 := extractSegmentsS res.1 departureDateRef rest
      (res2.1,
        Segment.origin (res.1.getD res.2 none) raw.airportCode raw.flightNumber :: res2.2)
    else
      let res :=
        getSegmentTimeS st raw.dayChangeCount raw.dayChangeText raw.endTimeText
          departureDateRef
      let res2 := extractSegmentsS res.1 departureDateRef rest
      (res2.1, Segment.arrival (res.1.getD res.2 none) raw.airportCode :: res2.2)

/-! ### Lemmas about the row matcher -/

lemma strContains_empty (t : String) : strContains t "" = true := by
  simp only [strContains, List.any_eq_true]
  refine ⟨0, ?_, ?_⟩
  · simp [List.mem_range]
  · simp [List.isPrefixOf]

lemma hintBlocks_map_eq (o : Option String) (t : String) :
    hintBlocks (o.map lcTrim) t = ! hintOkSpec o t := by
  cases o with
  | none => rfl
  | some s =>
    simp only [Option.map_some', hintBlocks, hintOkSpec]
    by_cases h : lcTrim s = ""
    · simp [h, strContains_empty]
    · simp [h]

lemma findRowGo_spec (filter : FilterDetails) (departing : Bool) :
    ∀ (rows : List String) (i : Nat),
      findRowGo (filter.depOriTime.map lcTrim) (filter.depArrTime.map lcTrim)
        (filter.retOriTime.map lcTrim) (filter.retArrTime.map lcTrim) departing i rows
      = (List.enumFrom i rows).find? (fun p => rowMatchesSpec filter departing p.2) := by
  intro rows
  induction rows with
  | nil => intro i; rfl
  | cons r rest ih =>
    intro i
    cases departing with
    | true =>
      simp only [findRowGo, List.enumFrom_cons, hintBlocks_map_eq]
      by_cases hm :
          (hintOkSpec filter.depOriTime (jsToLower r)
            && hintOkSpec filter.depArrTime (jsToLower r)) = true
      · rw [List.find?_cons_of_pos]
        · have h1 : hintOkSpec filter.depOriTime (jsToLower r) = true := by
            exact (Bool.and_eq_true _ _).mp hm |>.1
          have h2 : hintOkSpec filter.depArrTime (jsToLower r) = true := by
            exact (Bool.and_eq_true _ _).mp hm |>.2
          simp [h1, h2]
        · simpa [rowMatchesSpec] using hm
      · rw [List.find?_cons_of_neg]
        · have hcond : (! hintOkSpec filter.depOriTime (jsToLower r)
              || ! hintOkSpec filter.depArrTime (jsToLower r)) = true := by
            rw [← Bool.not_and]
            simp [hm]
          rw [hcond]
          simpa using ih (i + 1)
        · simpa [rowMatchesSpec] using hm
    | false =>
      simp only [findRowGo, List.enumFrom_cons, hintBlocks_map_eq]
      by_cases hm :
          (hintOkSpec filter.retOriTime (jsToLower r)
            && hintOkSpec filter.retArrTime (jsToLower r)) = true
      · rw [List.find?_cons_of_pos]
        · have h1 : hintOkSpec filter.retOriTime (jsToLower r) = true := by
            exact (Bool.and_eq_true _ _).mp hm |>.1
          have h2 : hintOkSpec filter.retArrTime (jsToLower r) = true := by
            exact (Bool.and_eq_true _ _).mp hm |>.2
          simp [h1, h2]
        · simpa [rowMatchesSpec] using hm
      · rw [List.find?_cons_of_neg]
        · have hcond : (! hintOkSpec filter.retOriTime (jsToLower r)
              || ! hintOkSpec filter.retArrTime (jsToLower r)) = true := by
            rw [← Bool.not_and]
            simp [hm]
          rw [hcond]
          simpa using ih (i + 1)
        · simpa [rowMatchesSpec] using hm

/-- C3: for every list of result rows and every `MatchCriteria` with at
least one provided hint, `findRowByFilter` scans rows in document order
and returns the first row (with its index) whose lower-cased itinerary
text contains, as a substring, every provided hint of the current
direction (`rowMatchesSpec`); absent hints impose no constraint, hints of
the other direction are not consulted, and if no row satisfies all
provided hints the matcher returns `none` (NotFound). -/
theorem row_matcher_first_match (rows : List String) (filter : FilterDetails)
    (flightType : String)
    (hprovided : filter.depOriTime.isSome ∨ filter.depArrTime.isSome
      ∨ filter.retOriTime.isSome ∨ filter.retArrTime.isSome) :
    findRowByFilter rows filter flightType
      = (List.enumFrom 0 rows).find?
          (fun p => rowMatchesSpec filter (strContains flightType "Departing") p.2) :=
  findRowGo_spec filter (strContains flightType "Departing") rows 0

/-- Witness for C3's theorem at the spec's §8 example: criteria
`{outbound-start: "10:30"}` against two rows select the first row,
index 0. -/
theorem row_matcher_first_match_witness :
    ((⟨some "10:30", none, none, none⟩ : FilterDetails).depOriTime.isSome
      ∨ (⟨some "10:30", none, none, none⟩ : FilterDetails).depArrTime.isSome
      ∨ (⟨some "10:30", none, none, none⟩ : FilterDetails).retOriTime.isSome
      ∨ (⟨some "10:30", none, none, none⟩ : FilterDetails).retArrTime.isSome)
    ∧ findRowByFilter ["... 10:30 ... 14:55 ...", "... 09:00 ... 12:00 ..."]
        ⟨some "10:30", none, none, none⟩ "Departing flight"
      = (List.enumFrom 0 ["... 10:30 ... 14:55 ...", "... 09:00 ... 12:00 ..."]).find?
          (fun p => rowMatchesSpec ⟨some "10:30", none, none, none⟩
            (strContains "Departing flight" "Departing") p.2)
    ∧ findRowByFilter ["... 10:30 ... 14:55 ...", "... 09:00 ... 12:00 ..."]
        ⟨some "10:30", none, none, none⟩ "Departing flight"
      = some (0, "... 10:30 ... 14:55 ...") :=
  ⟨Or.inl rfl,
    row_matcher_first_match _ _ _ (Or.inl rfl),
    by decide⟩

/-- C4 counterexample: with MatchCriteria entirely absent, the matcher
does NOT fail with NotFound on a non-empty row list — it returns the
first row. -/
theorem empty_criteria_counterexample :
    findRowByFilter ["row one"] ⟨none, none, none, none⟩ "Departing flight"
      = some (0, "row one")
    ∧ findRowByFilter ["row one"] ⟨none, none, none, none⟩ "Departing flight"
      ≠ none := by
  refine ⟨by decide, ?_⟩
  intro hc
  exact Option.some_ne_none _ ((by decide :
    findRowByFilter ["row one"] ⟨none, none, none, none⟩ "Departing flight"
      = some (0, "row one")).symm.trans hc)

/-- C4 amended: when MatchCriteria provides no hint at all,
`findRowByFilter` returns the first row (index 0) of any non-empty row
list — a pick-first-row fallback — and returns `none` only when the row
list is empty. -/
theorem empty_criteria_first_row (r : String) (rs : List String) (flightType : String)
    (filter : FilterDetails) (h1 : filter.depOriTime = none) (h2 : filter.depArrTime = none)
    (h3 : filter.retOriTime = none) (h4 : filter.retArrTime = none) :
    findRowByFilter (r :: rs) filter flightType = some (0, r)
    ∧ findRowByFilter [] filter flightType = none := by
  constructor
  · simp [findRowByFilter, findRowGo, h1, h2, h3, h4, hintBlocks]
  · simp [findRowByFilter, findRowGo]

/-- Witness for C4's amended theorem on a concrete one-row list. -/
theorem empty_criteria_first_row_witness :
    (⟨none, none, none, none⟩ : FilterDetails).depOriTime = none
    ∧ (findRowByFilter ["only row"] ⟨none, none, none, none⟩ "Return flight"
        = some (0, "only row")
      ∧ findRowByFilter [] ⟨none, none, none, none⟩ "Return flight" = none) :=
  ⟨rfl, empty_criteria_first_row "only row" [] "Return flight"
    ⟨none, none, none, none⟩ rfl rfl rfl rfl⟩

/-! ### Lemmas about the pairer -/

lemma buildFlightsAux_spec (seats : List SeatDetails) :
    ∀ (segs : List Segment), alternatingOK segs = true → ∀ (pi : Nat),
      ∃ fl, buildFlightsAux seats pi segs = some fl
        ∧ fl.length = segs.length / 2
        ∧ ∀ j, j < fl.length →
          ∃ st ap fn et ap2,
            segs.get? (2 * j) = some (Segment.origin (some st) ap fn)
            ∧ segs.get? (2 * j + 1) = some (Segment.arrival (some et) ap2)
            ∧ fl.get? j = some
                { flightNumber := fn, departureTime := st, arrivalTime := et,
                  departureAirport := ap, arrivalAirport := ap2,
                  duration := getDurationString st et,
                  seatDetails := seats.get? (min (pi + j) (seats.length - 1)) } := by
  have H : ∀ (n : Nat) (segs : List Segment), segs.length ≤ n →
      alternatingOK segs = true → ∀ (pi : Nat),
      ∃ fl, buildFlightsAux seats pi segs = some fl
        ∧ fl.length = segs.length / 2
        ∧ ∀ j, j < fl.length →
          ∃ st ap fn et ap2,
            segs.get? (2 * j) = some (Segment.origin (some st) ap fn)
            ∧ segs.get? (2 * j + 1) = some (Segment.arrival (some et) ap2)
            ∧ fl.get? j = some
                { flightNumber := fn, departureTime := st, arrivalTime := et,
                  departureAirport := ap, arrivalAirport := ap2,
                  duration := getDurationString st et,
                  seatDetails := seats.get? (min (pi + j) (seats.length - 1)) } := by
    intro n
    induction n with
    | zero =>
      intro segs hlen halt pi
      cases segs with
      | nil => exact ⟨[], rfl, by simp, by intro j hj; simp at hj⟩
      | cons a t => simp at hlen
    | succ n ih =>
      intro segs hlen halt pi
      cases segs with
      | nil => exact ⟨[], rfl, by simp, by intro j hj; simp at hj⟩
      | cons a t =>
        cases a with
        | arrival oet ap => simp [alternatingOK] at halt
        | origin ost ap fn =>
          cases ost with
          | none => simp [alternatingOK] at halt
          | some st =>
            cases t with
            | nil => simp [alternatingOK] at halt
            | cons b rest0 =>
              cases b with
              | origin _ _ _ => simp [alternatingOK] at halt
              | arrival oet ap2 =>
                cases oet with
                | none => simp [alternatingOK] at halt
                | some et =>
                  have halt' : alternatingOK rest0 = true := by
                    simpa [alternatingOK] using halt
                  have hlen' : rest0.length ≤ n := by
                    simp only [List.length_cons] at hlen
                    omega
                  obtain ⟨fl, hfl, hflen, hcorr⟩ := ih rest0 hlen' halt' (pi + 1)
                  refine ⟨(⟨fn, st, et, ap, ap2, getDurationString st et,
                      seats.get? (min pi (seats.length - 1))⟩ : Flight) :: fl,
                    ?_, ?_, ?_⟩
                  · simp only [buildFlightsAux, hfl, Option.map_some']
                  · simp only [List.length_cons, hflen]
                    omega
                  · intro j hj
                    cases j with
                    | zero =>
                      exact ⟨st, ap, fn, et, ap2, rfl, rfl, by simp⟩
                    | succ j' =>
                      have hj' : j' < fl.length := by
                        simp only [List.length_cons] at hj
                        omega
                      obtain ⟨st', ap', fn', et', ap2', hg1, hg2, hg3⟩ := hcorr j' hj'
                      refine ⟨st', ap', fn', et', ap2', ?_, ?_, ?_⟩
                      · have he : 2 * (j' + 1) = 2 * j' + 1 + 1 := by ring
                        rw [he, List.get?_cons_succ, List.get?_cons_succ]
                        exact hg1
                      · have he : 2 * (j' + 1) + 1 = 2 * j' + 1 + 1 + 1 := by ring
                        rw [he, List.get?_cons_succ, List.get?_cons_succ]
                        exact hg2
                      · rw [List.get?_cons_succ]
                        have he : pi + (j' + 1) = pi + 1 + j' := by ring
                        rw [he]
                        exact hg3
  intro segs halt pi
  exact H segs.length segs le_rfl halt pi

/-- C1 counterexample: the claim's "each produced Leg has departure
instant ≤ arrival instant" fails — an alternating even-length sequence
whose arrival entry carries an earlier instant is paired without any
check, producing a Leg with departure after arrival; and an even-length
sequence that does not alternate LegStart, LegEnd produces no Leg list at
all (the unchecked casts crash), so not every even-length sequence yields
length/2 Legs either. -/
theorem pairing_claim_counterexample :
    (buildFlightDetails [Segment.origin (some 3600000) "IAD" "AC1",
        Segment.arrival (some 0) "YYZ"] [] []).map
      (fun fd => fd.flights.map (fun f => decide (f.departureTime ≤ f.arrivalTime)))
      = some [false]
    ∧ buildFlightDetails [Segment.arrival (some 0) "YYZ",
        Segment.origin (some 3600000) "IAD" "AC1"] [] [] = none :=
  ⟨rfl, rfl⟩

/-- C1 (amended): for every layover-filtered segment sequence of even
length that strictly alternates LegStart, LegEnd with valid instants (as
validly-extracted sequences do), `buildFlightDetails` produces exactly
length/2 Legs, pairing consecutive entries (0,1), (2,3), … in document
order with no reordering by time; a produced Leg has departure ≤ arrival
exactly when its LegEnd entry's instant is not earlier than its LegStart
entry's instant, which the pairer does not itself check. -/
theorem pairing_even_alternating (segments : List Segment) (seats : List SeatDetails)
    (fares : FareMap) (h : alternatingOK segments = true) :
    ∃ fd, buildFlightDetails segments seats fares = some fd
      ∧ fd.fares = fares
      ∧ fd.flights.length = segments.length / 2
      ∧ ∀ j, j < fd.flights.length →
        ∃ st ap fn et ap2,
          segments.get? (2 * j) = some (Segment.origin (some st) ap fn)
          ∧ segments.get? (2 * j + 1) = some (Segment.arrival (some et) ap2)
          ∧ fd.flights.get? j = some
              (⟨fn, st, et, ap, ap2, getDurationString st et,
                seats.get? (min j (seats.length - 1))⟩ : Flight)
          ∧ (st ≤ et → ∃ f, fd.flights.get? j = some f
              ∧ f.departureTime ≤ f.arrivalTime) := by
  obtain ⟨fl, hfl, hlen, hcorr⟩ := buildFlightsAux_spec seats segments h 0
  refine ⟨⟨fl, fares⟩, ?_, rfl, hlen, ?_⟩
  · simp [buildFlightDetails, hfl]
  · intro j hj
    obtain ⟨st, ap, fn, et, ap2, h1, h2, h3⟩ := hcorr j hj
    refine ⟨st, ap, fn, et, ap2, h1, h2, ?_, ?_⟩
    · simpa using h3
    · intro hle
      exact ⟨_, by simpa using h3, hle⟩

/-- Witness for C1's amended theorem: a two-leg (connecting) itinerary
paired in document order. -/
theorem pairing_even_alternating_witness :
    alternatingOK [Segment.origin (some 0) "DCA" "AC1",
        Segment.arrival (some 3600000) "YYZ",
        Segment.origin (some 7200000) "YYZ" "AC2",
        Segment.arrival (some 10800000) "NRT"] = true
    ∧ ∃ fd, buildFlightDetails [Segment.origin (some 0) "DCA" "AC1",
          Segment.arrival (some 3600000) "YYZ",
          Segment.origin (some 7200000) "YYZ" "AC2",
          Segment.arrival (some 10800000) "NRT"] [⟨10, 2, 3, 1⟩] [] = some fd
        ∧ fd.fares = []
        ∧ fd.flights.length = ([Segment.origin (some 0) "DCA" "AC1",
            Segment.arrival (some 3600000) "YYZ",
            Segment.origin (some 7200000) "YYZ" "AC2",
            Segment.arrival (some 10800000) "NRT"] : List Segment).length / 2
        ∧ ∀ j, j < fd.flights.length →
          ∃ st ap fn et ap2,
            ([Segment.origin (some 0) "DCA" "AC1",
              Segment.arrival (some 3600000) "YYZ",
              Segment.origin (some 7200000) "YYZ" "AC2",
              Segment.arrival (some 10800000) "NRT"] : List Segment).get? (2 * j)
              = some (Segment.origin (some st) ap fn)
            ∧ ([Segment.origin (some 0) "DCA" "AC1",
                Segment.arrival (some 3600000) "YYZ",
                Segment.origin (some 7200000) "YYZ" "AC2",
                Segment.arrival (some 10800000) "NRT"] : List Segment).get? (2 * j + 1)
              = some (Segment.arrival (some et) ap2)
            ∧ fd.flights.get? j = some
                (⟨fn, st, et, ap, ap2, getDurationString st et,
                  ([⟨10, 2, 3, 1⟩] : List SeatDetails).get?
                    (min j (([⟨10, 2, 3, 1⟩] : List SeatDetails).length - 1))⟩ : Flight)
            ∧ (st ≤ et → ∃ f, fd.flights.get? j = some f
                ∧ f.departureTime ≤ f.arrivalTime) :=
  ⟨rfl, pairing_even_alternating _ _ _ rfl⟩

/-- C2: an odd segment count (after layover filtering) makes
`processSingleFlight` return `null` for that row before any pairing —
never a partial Leg list.  Sibling rows and the other direction are
separate invocations on their own inputs and are untouched by this
value. -/
theorem odd_segment_count_rejected (segments : List Segment) (seats : List SeatDetails)
    (fares : FareMap) (fareOptionsMatching : Nat) (h : segments.length % 2 = 1) :
    processSingleFlight segments seats fares fareOptionsMatching = none := by
  simp [processSingleFlight, h]

/-- Witness for C2's theorem on a one-segment (odd) input. -/
theorem odd_segment_count_rejected_witness :
    ([Segment.origin (some 0) "DCA" "AC1"] : List Segment).length % 2 = 1
    ∧ processSingleFlight [Segment.origin (some 0) "DCA" "AC1"] [] [] 1 = none :=
  ⟨rfl, odd_segment_count_rejected _ _ _ _ rfl⟩

/-- C6: with a non-empty seat-tab list, the Leg at pair-index `i`
receives the SeatInventory at index `min(i, tabCount - 1)` — legs beyond
the last tab reuse the last tab's inventory. -/
theorem seat_tab_alignment (segments : List Segment) (seats : List SeatDetails)
    (fares : FareMap) (h : alternatingOK segments = true) (hne : seats ≠ [])
    (i : Nat) (hi : i < segments.length / 2) :
    ∃ fd f, buildFlightDetails segments seats fares = some fd
      ∧ fd.flights.get? i = some f
      ∧ f.seatDetails = seats.get? (min i (seats.length - 1))
      ∧ min i (seats.length - 1) < seats.length := by
  obtain ⟨fl, hfl, hlen, hcorr⟩ := buildFlightsAux_spec seats segments h 0
  have hi' : i < fl.length := by rw [hlen]; exact hi
  obtain ⟨st, ap, fn, et, ap2, h1, h2, h3⟩ := hcorr i hi'
  refine ⟨⟨fl, fares⟩,
    ⟨fn, st, et, ap, ap2, getDurationString st et,
      seats.get? (min i (seats.length - 1))⟩, ?_, ?_, rfl, ?_⟩
  · simp [buildFlightDetails, hfl]
  · simpa using h3
  · have hlen0 : seats.length ≠ 0 := fun h0 => hne (List.length_eq_zero.mp h0)
    have hmin : min i (seats.length - 1) ≤ seats.length - 1 := Nat.min_le_right _ _
    omega

/-- Witness for C6's theorem at the spec's §8 example: 3 legs and 2 seat
tabs, checked at pair-index 2 — leg 2 reuses tab 1. -/
theorem seat_tab_alignment_witness :
    alternatingOK [Segment.origin (some 0) "DCA" "AC1",
        Segment.arrival (some 3600000) "YYZ",
        Segment.origin (some 7200000) "YYZ" "AC2",
        Segment.arrival (some 10800000) "HND",
        Segment.origin (some 14400000) "HND" "AC3",
        Segment.arrival (some 18000000) "NRT"] = true
    ∧ ([⟨10, 2, 3, 1⟩, ⟨20, 4, 6, 2⟩] : List SeatDetails) ≠ []
    ∧ 2 < ([Segment.origin (some 0) "DCA" "AC1",
        Segment.arrival (some 3600000) "YYZ",
        Segment.origin (some 7200000) "YYZ" "AC2",
        Segment.arrival (some 10800000) "HND",
        Segment.origin (some 14400000) "HND" "AC3",
        Segment.arrival (some 18000000) "NRT"] : List Segment).length / 2
    ∧ ∃ fd f, buildFlightDetails [Segment.origin (some 0) "DCA" "AC1",
          Segment.arrival (some 3600000) "YYZ",
          Segment.origin (some 7200000) "YYZ" "AC2",
          Segment.arrival (some 10800000) "HND",
          Segment.origin (some 14400000) "HND" "AC3",
          Segment.arrival (some 18000000) "NRT"]
          [⟨10, 2, 3, 1⟩, ⟨20, 4, 6, 2⟩] [] = some fd
        ∧ fd.flights.get? 2 = some f
        ∧ f.seatDetails = ([⟨10, 2, 3, 1⟩, ⟨20, 4, 6, 2⟩] : List SeatDetails).get?
            (min 2 (([⟨10, 2, 3, 1⟩, ⟨20, 4, 6, 2⟩] : List SeatDetails).length - 1))
        ∧ min 2 (([⟨10, 2, 3, 1⟩, ⟨20, 4, 6, 2⟩] : List SeatDetails).length - 1)
            < ([⟨10, 2, 3, 1⟩, ⟨20, 4, 6, 2⟩] : List SeatDetails).length :=
  ⟨rfl, by simp, by decide,
    seat_tab_alignment [Segment.origin (some 0) "DCA" "AC1",
        Segment.arrival (some 3600000) "YYZ",
        Segment.origin (some 7200000) "YYZ" "AC2",
        Segment.arrival (some 10800000) "HND",
        Segment.origin (some 14400000) "HND" "AC3",
        Segment.arrival (some 18000000) "NRT"]
      [⟨10, 2, 3, 1⟩, ⟨20, 4, 6, 2⟩] [] rfl (by simp) 2 (by decide)⟩

/-! ### Time parser (C5) -/

/-- C5 counterexample: the out-of-range clock string "25:99" does not
fail — `getSegmentTime` rolls it over by calendar arithmetic, returning
the very same instant as the in-range "2:39" of the following day; and a
non-numeric clock string yields a silently propagated Invalid Date
(`none`), not a raised ParseError. -/
theorem time_parser_counterexample :
    getSegmentTime 0 "" "25:99" (some 0) = some 95940000
    ∧ getSegmentTime 0 "" "2:39" (some 86400000) = some 95940000
    ∧ getSegmentTime 0 "" "ab:cd" (some 0) = none :=
  ⟨rfl, rfl, rfl⟩

/-- C5 (amended): `getSegmentTime` performs no range validation: whenever
the colon-split clock string converts to two numbers `h`, `m` — in range
or not — the result is the reference day's midnight plus `h` hours plus
`m` minutes, advanced by `N` calendar days exactly when a "+N day"
annotation is observed alongside the time; out-of-range components roll
over rather than failing. -/
theorem time_parser_no_validation (dayChangeCount : Nat) (dayChangeText flightTime : String)
    (ref h m : Int)
    (hp : ((splitOnChar ':' flightTime.data).map String.mk).map jsNumber
      = [some h, some m]) :
    getSegmentTime dayChangeCount dayChangeText flightTime (some ref)
      = some (ref - ref % msPerDay + h * msPerHour + m * msPerMinute
          + (if dayChangeCount > 0 then
              match dayMatch dayChangeText with
              | some n => Int.ofNat n * msPerDay
              | none => 0
            else 0)) := by
  simp only [getSegmentTime, hp, List.get?_cons_zero, List.get?_cons_succ, Option.getD_some]
  by_cases hdc : dayChangeCount > 0
  · cases hdm : dayMatch dayChangeText with
    | none => simp [hdc, hdm, setUTCHoursMs]
    | some n => simp [hdc, hdm, setUTCHoursMs]
  · simp [hdc, setUTCHoursMs]

/-- Witness for C5's amended theorem: "9:40" with a "+1 day" annotation. -/
theorem time_parser_no_validation_witness :
    ((splitOnChar ':' "9:40".data).map String.mk).map jsNumber = [some 9, some 40]
    ∧ getSegmentTime 1 "+1 day" "9:40" (some 0)
      = some (0 - 0 % msPerDay + 9 * msPerHour + 40 * msPerMinute
          + (if (1 : Nat) > 0 then
              match dayMatch "+1 day" with
              | some n => Int.ofNat n * msPerDay
              | none => 0
            else 0)) :=
  ⟨rfl, time_parser_no_validation 1 "+1 day" "9:40" 0 9 40 rfl⟩

/-! ### Fare quote reader (C7) -/

/-- C7 counterexample: a fare option whose displayed price strips to a
malformed remainder ("N/A" strips to "") is NOT dropped from the fare
map — its key is stored with a `NaN` price. -/
theorem malformed_price_counterexample :
    getFareDetails [⟨1, "ECONOMY", "Basic", "N/A"⟩] = [("ECONOMY (Basic)", none)]
    ∧ getFareDetails [⟨1, "ECONOMY", "Basic", "N/A"⟩] ≠ [] := by
  refine ⟨by decide, ?_⟩
  intro hc
  exact List.cons_ne_nil _ _
    ((by decide : getFareDetails [⟨1, "ECONOMY", "Basic", "N/A"⟩]
      = [("ECONOMY (Basic)", none)]).symm.trans hc)

lemma jsParseFloat_nonneg (s : String) (q : ℚ) (h : jsParseFloat s = some q) : 0 ≤ q := by
  unfold jsParseFloat at h
  split at h
  · split at h
    · exact absurd h (by simp)
    · rw [Option.some_inj] at h
      subst h
      positivity
  · split at h
    · exact absurd h (by simp)
    · rw [Option.some_inj] at h
      subst h
      positivity

lemma mem_recordSet (m : FareMap) (k : String) (v : Option ℚ) (p : String × Option ℚ)
    (h : p ∈ recordSet m k v) : p = (k, v) ∨ p ∈ m := by
  unfold recordSet at h
  split at h
  · obtain ⟨q, hq, hqe⟩ := List.mem_map.mp h
    by_cases hk : (q.1 == k) = true
    · rw [if_pos hk] at hqe
      exact Or.inl hqe.symm
    · rw [if_neg hk] at hqe
      exact Or.inr (hqe ▸ hq)
  · rcases List.mem_append.mp h with h1 | h2
    · exact Or.inr h1
    · exact Or.inl (by simpa using h2)

lemma key_in_recordSet (m : FareMap) (k : String) (v : Option ℚ) :
    ∃ w, (k, w) ∈ recordSet m k v := by
  unfold recordSet
  split
  · next hany =>
    obtain ⟨q, hq, hqk⟩ := List.any_eq_true.mp hany
    refine ⟨v, List.mem_map.mpr ⟨q, hq, ?_⟩⟩
    rw [if_pos hqk]
  · exact ⟨v, List.mem_append.mpr (Or.inr (by simp))⟩

lemma key_preserved_recordSet (m : FareMap) (k v k0) (h : ∃ w, (k0, w) ∈ m) :
    ∃ w, (k0, w) ∈ recordSet m k v := by
  obtain ⟨w, hw⟩ := h
  unfold recordSet
  split
  · by_cases hk : ((k0, w).1 == k) = true
    · refine ⟨v, List.mem_map.mpr ⟨(k0, w), hw, ?_⟩⟩
      rw [if_pos hk]
      have : k0 = k := by simpa using hk
      rw [this]
    · refine ⟨w, List.mem_map.mpr ⟨(k0, w), hw, ?_⟩⟩
      rw [if_neg hk]
  · exact ⟨w, List.mem_append.mpr (Or.inl hw)⟩

/-- The fold step of `getFareDetails`. -/
def fareStep (fareDetails : FareMap) (option : FareOption) : FareMap :=
  if option.titleCount = 0 then fareDetails
  else recordSet fareDetails (fareKey option) (jsParseFloat (stripNonPrice option.priceText))

lemma getFareDetails_eq_foldl (options : List FareOption) :
    getFareDetails options = options.foldl fareStep [] := rfl

lemma foldl_fareStep_mem (p : String × Option ℚ) :
    ∀ (opts : List FareOption) (acc : FareMap), p ∈ opts.foldl fareStep acc →
      p ∈ acc ∨ ∃ o ∈ opts, o.titleCount ≠ 0 ∧ p.1 = fareKey o
        ∧ p.2 = jsParseFloat (stripNonPrice o.priceText) := by
  intro opts
  induction opts with
  | nil => exact fun acc h => Or.inl h
  | cons o rest ih =>
    intro acc h
    simp only [List.foldl_cons] at h
    rcases ih _ h with hacc | hex
    · unfold fareStep at hacc
      split at hacc
      · exact Or.inl hacc
      · next ht =>
        rcases mem_recordSet _ _ _ _ hacc with he | hm
        · refine Or.inr ⟨o, List.mem_cons_self _ _, ht, ?_, ?_⟩
          · rw [he]
          · rw [he]
        · exact Or.inl hm
    · obtain ⟨o', ho', rest'⟩ := hex
      exact Or.inr ⟨o', List.mem_cons_of_mem _ ho', rest'⟩

lemma foldl_fareStep_key :
    ∀ (opts : List FareOption) (acc : FareMap) (k0 : String),
      (∃ w, (k0, w) ∈ acc) → ∃ w, (k0, w) ∈ opts.foldl fareStep acc := by
  intro opts
  induction opts with
  | nil => exact fun acc k0 h => h
  | cons o rest ih =>
    intro acc k0 h
    simp only [List.foldl_cons]
    refine ih _ _ ?_
    unfold fareStep
    split
    · exact h
    · exact key_preserved_recordSet _ _ _ _ h

lemma foldl_fareStep_titled :
    ∀ (opts : List FareOption) (acc : FareMap) (o : FareOption),
      o ∈ opts → o.titleCount ≠ 0 → ∃ w, (fareKey o, w) ∈ opts.foldl fareStep acc := by
  intro opts
  induction opts with
  | nil => exact fun acc o h => absurd h (List.not_mem_nil o)
  | cons o' rest ih =>
    intro acc o hmem ht
    simp only [List.foldl_cons]
    rcases List.mem_cons.mp hmem with he | hm
    · subst he
      refine foldl_fareStep_key rest _ _ ?_
      unfold fareStep
      rw [if_neg ht]
      exact key_in_recordSet _ _ _
    · exact ih _ o hm ht

/-- C7 (amended): every entry of the fare map built by `getFareDetails`
comes from an option exposing a fare-family title, carries the key
`"<family> (<cabin>)"` and stores the `parseFloat` of the stripped price
text — `NaN` when malformed, a non-negative price when well-formed (the
malformed option is NOT dropped); and conversely every option exposing a
title contributes its key to the map.  Only options lacking the
fare-family title element are skipped. -/
theorem fare_quote_reader (options : List FareOption) :
    (∀ k v, (k, v) ∈ getFareDetails options →
      (∃ o ∈ options, o.titleCount ≠ 0 ∧ k = fareKey o
        ∧ v = jsParseFloat (stripNonPrice o.priceText))
      ∧ ∀ q, v = some q → 0 ≤ q)
    ∧ ∀ o ∈ options, o.titleCount ≠ 0 →
        ∃ w, (fareKey o, w) ∈ getFareDetails options := by
  constructor
  · intro k v h
    rw [getFareDetails_eq_foldl] at h
    rcases foldl_fareStep_mem (k, v) options [] h with hacc | hex
    · simp at hacc
    · obtain ⟨o, ho, ht, hk, hv⟩ := hex
      refine ⟨⟨o, ho, ht, hk, hv⟩, ?_⟩
      intro q hq
      exact jsParseFloat_nonneg _ _ (by rw [← hv, hq])
  · intro o ho ht
    rw [getFareDetails_eq_foldl]
    exact foldl_fareStep_titled options [] o ho ht

/-- Witness for C7's amended theorem: a well-formed "$123" option's
entry is traced back to its option with a non-negative parsed price. -/
theorem fare_quote_reader_witness :
    (("ECONOMY (Standard)", some (123 : ℚ))
        ∈ getFareDetails [⟨1, "ECONOMY", "Standard", "$123"⟩])
    ∧ ((∃ o ∈ [(⟨1, "ECONOMY", "Standard", "$123"⟩ : FareOption)],
        o.titleCount ≠ 0 ∧ "ECONOMY (Standard)" = fareKey o
        ∧ some (123 : ℚ) = jsParseFloat (stripNonPrice o.priceText))
      ∧ ∀ q, some (123 : ℚ) = some q → 0 ≤ q) :=
  ⟨by decide,
    (fare_quote_reader [⟨1, "ECONOMY", "Standard", "$123"⟩]).1
      "ECONOMY (Standard)" (some (123 : ℚ)) (by decide)⟩

/-! ### Fare fallback in the aggregator (C8) -/

/-- Decidable well-formedness of one fare map: non-empty, and every
stored price is an actual (non-`NaN`) non-negative number — exactly what
the fare extraction produces for well-formed pages. -/
def faresOk (m : FareMap) : Bool :=
  ! m.isEmpty
    && m.all (fun p =>
      match p.2 with
      | some q => decide (0 ≤ q)
      | none => false)

/-- An `AggregatedDataPoint` as `loadData` builds it from a well-formed
snapshot file: both fare maps well-formed and both `lowest*Fare` fields
equal to `Math.min` over the corresponding map's values. -/
def WellFormedPoint (d : AggregatedDataPoint) : Prop :=
  faresOk d.departureFares = true ∧ faresOk d.returnFares = true
  ∧ d.lowestDepartureFare = jsMathMin (d.departureFares.map (fun p => p.2))
  ∧ d.lowestReturnFare = jsMathMin (d.returnFares.map (fun p => p.2))

instance (d : AggregatedDataPoint) : Decidable (WellFormedPoint d) := by
  unfold WellFormedPoint
  infer_instance

lemma faresOk_vals (m : FareMap) (h : faresOk m = true) :
    ∀ e ∈ m, ∃ q, e.2 = some q ∧ 0 ≤ q := by
  intro e he
  have h2 := List.all_eq_true.mp ((Bool.and_eq_true _ _).mp h).2 e he
  cases hv : e.2 with
  | none => rw [hv] at h2; simp at h2
  | some q =>
    rw [hv] at h2
    exact ⟨q, rfl, by simpa using h2⟩

lemma foldl_jsMinStep_spec :
    ∀ (xs : List (Option ℚ)) (a : ℚ), (∀ v ∈ xs, ∃ q, v = some q) →
      ∃ q0, xs.foldl jsMinStep (some a) = some q0
        ∧ (q0 = a ∨ some q0 ∈ xs)
        ∧ q0 ≤ a ∧ ∀ q, some q ∈ xs → q0 ≤ q := by
  intro xs
  induction xs with
  | nil =>
    intro a h
    exact ⟨a, rfl, Or.inl rfl, le_refl a, by simp⟩
  | cons y ys ih =>
    intro a h
    obtain ⟨qy, hqy⟩ := h y (List.mem_cons_self _ _)
    subst hqy
    simp only [List.foldl_cons, jsMinStep]
    obtain ⟨q0, hfold, hmem, hle, hmin⟩ :=
      ih (min a qy) (fun v hv => h v (List.mem_cons_of_mem _ hv))
    refine ⟨q0, hfold, ?_, le_trans hle (min_le_left _ _), ?_⟩
    · rcases hmem with he | hin
      · rcases min_choice a qy with hc | hc
        · exact Or.inl (he.trans hc)
        · exact Or.inr (by rw [he, hc]; exact List.mem_cons_self _ _)
      · exact Or.inr (List.mem_cons_of_mem _ hin)
    · intro q hq
      rcases List.mem_cons.mp hq with he | hin
      · have : q = qy := by simpa using he
        subst this
        exact le_trans hle (min_le_right _ _)
      · exact hmin q hin

lemma jsMathMin_all_some (l : List (Option ℚ)) (hne : l ≠ [])
    (hall : ∀ v ∈ l, ∃ q, v = some q) :
    ∃ q0, jsMathMin l = some q0 ∧ some q0 ∈ l ∧ ∀ q, some q ∈ l → q0 ≤ q := by
  cases l with
  | nil => exact absurd rfl hne
  | cons x xs =>
    obtain ⟨qx, hqx⟩ := hall x (List.mem_cons_self _ _)
    subst hqx
    obtain ⟨q0, hfold, hmem, hle, hmin⟩ :=
      foldl_jsMinStep_spec xs qx (fun v hv => hall v (List.mem_cons_of_mem _ hv))
    refine ⟨q0, hfold, ?_, ?_⟩
    · rcases hmem with he | hin
      · exact he ▸ List.mem_cons_self _ _
      · exact List.mem_cons_of_mem _ hin
    · intro q hq
      rcases List.mem_cons.mp hq with he | hin
      · have : q = qx := by simpa using he
        subst this
        exact hle
      · exact hmin q hin

lemma fareOrLowest_present (m : FareMap) (k : String) (p : ℚ)
    (hall : ∀ e ∈ m, ∃ q, e.2 = some q ∧ 0 ≤ q)
    (hget : recordGet m k = some p) :
    jsOrNum (recordGet m k) (jsMathMin (m.map (fun e => e.2))) = some p := by
  by_cases hp : p = 0
  · subst hp
    -- 0 is falsy; but the lowest observed fare is then 0 as well
    have hfind : ∃ e, m.find? (fun e => e.1 == k) = some e ∧ e.2 = some 0 := by
      unfold recordGet at hget
      split at hget
      · next e he => exact ⟨e, he, hget⟩
      · exact absurd hget (by simp)
    obtain ⟨e, hfind, he2⟩ := hfind
    have hmem : e ∈ m := List.mem_of_find?_eq_some hfind
    have hvmem : some (0 : ℚ) ∈ m.map (fun e => e.2) :=
      List.mem_map.mpr ⟨e, hmem, he2⟩
    obtain ⟨q0, hmin, hq0mem, hq0min⟩ :=
      jsMathMin_all_some (m.map (fun e => e.2)) (List.ne_nil_of_mem hvmem)
        (by
          intro v hv
          obtain ⟨e', he', hve⟩ := List.mem_map.mp hv
          obtain ⟨q, hq, _⟩ := hall e' he'
          exact ⟨q, hve ▸ hq⟩)
    have hq0le : q0 ≤ 0 := hq0min 0 hvmem
    have hq0ge : 0 ≤ q0 := by
      obtain ⟨e', he', hve⟩ := List.mem_map.mp hq0mem
      obtain ⟨q, hq, hqnn⟩ := hall e' he'
      have : q = q0 := by
        have h2 := hq.symm.trans hve
        simpa using h2
      exact this ▸ hqnn
    have hq0 : q0 = 0 := le_antisymm hq0le hq0ge
    rw [hget, hmin, hq0]
    rfl
  · rw [hget]
    simp [jsOrNum, jsTruthy, hp]

lemma fareOrLowest_absent (m : FareMap) (k : String) (low : Option ℚ)
    (hget : recordGet m k = none) : jsOrNum (recordGet m k) low = low := by
  rw [hget]
  rfl

/-- C8: for every snapshot list whose points are well-formed (as
`loadData` builds them) and every selected fare class `k`, the fare
series and the headline fare values are the per-point
`fares[k] || lowestFare` lookup; at every point where `k` is absent from
a direction's fare map that lookup equals the point's lowest observed
fare of that direction, and where `k` is present it equals `k`'s own
price. -/
theorem fare_class_fallback (data : List AggregatedDataPoint) (k : String)
    (hwf : ∀ d ∈ data, WellFormedPoint d) :
    ∀ i d, data.get? i = some d →
      ((faresDataDeparture data k).get? i = some (d.timestamp, fareOrLowestDeparture d k)
        ∧ (faresDataReturn data k).get? i = some (d.timestamp, fareOrLowestReturn d k))
      ∧ (∀ p, recordGet d.departureFares k = some p → fareOrLowestDeparture d k = some p)
      ∧ (recordGet d.departureFares k = none →
          fareOrLowestDeparture d k = d.lowestDepartureFare)
      ∧ (∀ p, recordGet d.returnFares k = some p → fareOrLowestReturn d k = some p)
      ∧ (recordGet d.returnFares k = none → fareOrLowestReturn d k = d.lowestReturnFare)
      ∧ (i = data.length - 1 →
          currentDepartureFare data k = fareOrLowestDeparture d k
          ∧ currentReturnFare data k = fareOrLowestReturn d k) := by
  intro i d hd
  have hdmem : d ∈ data := List.get?_mem hd
  obtain ⟨hfo1, hfo2, hlo1, hlo2⟩ := hwf d hdmem
  refine ⟨⟨?_, ?_⟩, ?_, ?_, ?_, ?_, ?_⟩
  · rw [faresDataDeparture, List.get?_map, hd, Option.map_some']
  · rw [faresDataReturn, List.get?_map, hd, Option.map_some']
  · intro p hp
    unfold fareOrLowestDeparture
    rw [hlo1]
    exact fareOrLowest_present _ _ _ (faresOk_vals _ hfo1) hp
  · intro hn
    exact fareOrLowest_absent _ _ _ hn
  · intro p hp
    unfold fareOrLowestReturn
    rw [hlo2]
    exact fareOrLowest_present _ _ _ (faresOk_vals _ hfo2) hp
  · intro hn
    exact fareOrLowest_absent _ _ _ hn
  · intro hi
    subst hi
    refine ⟨?_, ?_⟩
    · unfold currentDepartureFare
      rw [hd]
    · unfold currentReturnFare
      rw [hd]

/-- Witness for C8's theorem at the spec's §8 example: snapshot A carries
fare class "ECONOMY (Basic)", snapshot B lacks it; at B's position the
series value for "ECONOMY (Basic)" is B's lowest observed departure fare
(250), not a hole. -/
theorem fare_class_fallback_witness :
    (∀ d ∈ [loadDataPoint "2026-01-27T00:00:00"
          [("ECONOMY (Basic)", some 210), ("ECONOMY (Flex)", some 300)]
          [("ECONOMY (Basic)", some 200)] [] [],
        loadDataPoint "2026-01-28T00:00:00"
          [("ECONOMY (Flex)", some 250)] [("ECONOMY (Flex)", some 260)] [] []],
      WellFormedPoint d)
    ∧ (recordGet (loadDataPoint "2026-01-28T00:00:00"
          [("ECONOMY (Flex)", some 250)] [("ECONOMY (Flex)", some 260)] [] []).departureFares
          "ECONOMY (Basic)" = none →
        fareOrLowestDeparture (loadDataPoint "2026-01-28T00:00:00"
            [("ECONOMY (Flex)", some 250)] [("ECONOMY (Flex)", some 260)] [] [])
            "ECONOMY (Basic)"
          = (loadDataPoint "2026-01-28T00:00:00"
              [("ECONOMY (Flex)", some 250)] [("ECONOMY (Flex)", some 260)]
              [] []).lowestDepartureFare)
    ∧ recordGet (loadDataPoint "2026-01-28T00:00:00"
        [("ECONOMY (Flex)", some 250)] [("ECONOMY (Flex)", some 260)] [] []).departureFares
        "ECONOMY (Basic)" = none
    ∧ fareOrLowestDeparture (loadDataPoint "2026-01-28T00:00:00"
        [("ECONOMY (Flex)", some 250)] [("ECONOMY (Flex)", some 260)] [] [])
        "ECONOMY (Basic)" = some 250 :=
  ⟨by decide,
    (fare_class_fallback
      [loadDataPoint "2026-01-27T00:00:00"
          [("ECONOMY (Basic)", some 210), ("ECONOMY (Flex)", some 300)]
          [("ECONOMY (Basic)", some 200)] [] [],
        loadDataPoint "2026-01-28T00:00:00"
          [("ECONOMY (Flex)", some 250)] [("ECONOMY (Flex)", some 260)] [] []]
      "ECONOMY (Basic)" (by decide) 1
      (loadDataPoint "2026-01-28T00:00:00"
        [("ECONOMY (Flex)", some 250)] [("ECONOMY (Flex)", some 260)] [] []) rfl).2.2.1,
    by decide, by decide⟩

/-! ### Per-flight seat series (C9) -/

/-- C9: evaluation of the per-flight seat series at a failing input.  Two
snapshots; flight "AC1" appears only in the SECOND snapshot with 7
standard seats.  The accumulated per-flight list is the compacted `[7]`,
and the chart series indexes that compacted list by snapshot position —
so the FIRST snapshot's position (where "AC1" is absent) shows `some 7`
and the second (where it was observed) shows `none`: values are shifted
into absent slots instead of the claimed index-aligned
`undefined`-at-absence behaviour. -/
theorem seat_series_misaligned :
    flightStandardSeats
      [loadDataPoint "2026-01-27T00:00:00" [("F", some 210)] [("F", some 200)] [] [],
       loadDataPoint "2026-01-28T00:00:00" [("F", some 225)] [("F", some 215)]
         [⟨"AC1", 7, 3, "DCA-NRT"⟩] []] "AC1" = [7]
    ∧ flightDataStandard
      [loadDataPoint "2026-01-27T00:00:00" [("F", some 210)] [("F", some 200)] [] [],
       loadDataPoint "2026-01-28T00:00:00" [("F", some 225)] [("F", some 215)]
         [⟨"AC1", 7, 3, "DCA-NRT"⟩] []] "AC1"
      = [("2026-01-27T00:00:00", some 7), ("2026-01-28T00:00:00", none)] :=
  ⟨rfl, rfl⟩

/-! ### Frame property of the date store (C10) -/

lemma getD_frame_set (l : DateStore) (i r : Nat) (x : Option Int) (hne : i ≠ r) :
    (l.set i x).getD r none = l.getD r none := by
  rw [List.getD_eq_getD_get?, List.getD_eq_getD_get?, List.get?_set_ne _ _ hne]

lemma getD_frame_append (l l2 : DateStore) (r : Nat) (h : r < l.length) :
    (l ++ l2).getD r none = l.getD r none := by
  rw [List.getD_eq_getD_get?, List.getD_eq_getD_get?, List.get?_append h]

lemma getSegmentTimeS_length (st : DateStore) (dcc : Nat) (dct ft : String) (r : Nat) :
    ((getSegmentTimeS st dcc dct ft r).1).length = st.length + 1 := by
  simp only [getSegmentTimeS, allocDate]
  split
  · split <;> simp [List.length_set]
  · simp [List.length_set]

lemma getSegmentTimeS_frame (st : DateStore) (dcc : Nat) (dct ft : String) (r : Nat)
    (h : r < st.length) :
    ((getSegmentTimeS st dcc dct ft r).1).getD r none = st.getD r none := by
  have hne : st.length ≠ r := by omega
  have hne2 : (st ++ [st.getD r none]).length ≠ r := by
    simp only [List.length_append, List.length_cons, List.length_nil]
    omega
  simp only [getSegmentTimeS, allocDate]
  split
  · split
    · rw [getD_frame_set _ _ _ _ hne, getD_frame_set _ _ _ _ hne,
        getD_frame_append _ _ _ h]
    · rw [getD_frame_set _ _ _ _ hne, getD_frame_append _ _ _ h]
  · rw [getD_frame_set _ _ _ _ hne, getD_frame_append _ _ _ h]

lemma extractSegmentsS_frame :
    ∀ (raws : List RawSegment) (st : DateStore) (r : Nat), r < st.length →
      ((extractSegmentsS st r raws).1).getD r none = st.getD r none
      ∧ st.length ≤ ((extractSegmentsS st r raws).1).length := by
  intro raws
  induction raws with
  | nil => exact fun st r h => ⟨rfl, le_refl _⟩
  | cons raw rest ih =>
    intro st r h
    simp only [extractSegmentsS]
    split
    · exact ih st r h
    · split
      · have hfr := getSegmentTimeS_frame st raw.dayChangeCount raw.dayChangeText
          raw.startTimeText r h
        have hlen := getSegmentTimeS_length st raw.dayChangeCount raw.dayChangeText
          raw.startTimeText r
        have hrec := ih (getSegmentTimeS st raw.dayChangeCount raw.dayChangeText
          raw.startTimeText r).1 r (by omega)
        dsimp only
        exact ⟨hrec.1.trans hfr, by omega⟩
      · have hfr := getSegmentTimeS_frame st raw.dayChangeCount raw.dayChangeText
          raw.endTimeText r h
        have hlen := getSegmentTimeS_length st raw.dayChangeCount raw.dayChangeText
          raw.endTimeText r
        have hrec := ih (getSegmentTimeS st raw.dayChangeCount raw.dayChangeText
          raw.endTimeText r).1 r (by omega)
        dsimp only
        exact ⟨hrec.1.trans hfr, by omega⟩

/-- C10: the extraction pipeline never mutates the caller's Date object:
`getSegmentTime` works on a fresh copy (`new Date(initialDate)`), so
after any single call — and after extracting any number of segments, each
of which calls it against the same `searchParams.departureDate`
reference — the referenced departure date holds exactly the value it was
supplied with. -/
theorem search_request_not_mutated (st : DateStore) (r : Nat) (dayChangeCount : Nat)
    (dayChangeText flightTime : String) (raws : List RawSegment) (h : r < st.length) :
    ((getSegmentTimeS st dayChangeCount dayChangeText flightTime r).1).getD r none
      = st.getD r none
    ∧ ((extractSegmentsS st r raws).1).getD r none = st.getD r none :=
  ⟨getSegmentTimeS_frame st dayChangeCount dayChangeText flightTime r h,
    (extractSegmentsS_frame raws st r h).1⟩

/-- Witness for C10's theorem: a two-segment extraction (an origin entry
with a "+1 day" annotation and an arrival entry) against a store holding
the departure date at reference 0. -/
theorem search_request_not_mutated_witness :
    (0 : Nat) < ([some 1748044800000] : DateStore).length
    ∧ (((getSegmentTimeS [some 1748044800000] 1 "+1 day" "9:40" 0).1).getD 0 none
        = ([some 1748044800000] : DateStore).getD 0 none
      ∧ ((extractSegmentsS [some 1748044800000] 0
          [⟨0, 1, "9:40", "", "DCA", "AC1", 1, "+1 day"⟩,
           ⟨0, 0, "", "15:25", "NRT", "", 0, ""⟩]).1).getD 0 none
        = ([some 1748044800000] : DateStore).getD 0 none) :=
  ⟨by decide,
    search_request_not_mutated [some 1748044800000] 0 1 "+1 day" "9:40"
      [⟨0, 1, "9:40", "", "DCA", "AC1", 1, "+1 day"⟩,
       ⟨0, 0, "", "15:25", "NRT", "", 0, ""⟩] (by decide)⟩

end SeatWatch
